import Mathlib

/-!
Verification of the `jester-stdlib` dynamic array against its design
specification.

The repository contains two implementation variants of the same
type-agnostic dynamic array:

* `src/src/data_structures/array/jester_dynamic_array.c` — the variant whose
  operations return a `bool` success signal (embedded below in namespace
  `DataStructures`);
* `src/src/datastructs/array/jester-dynamic-array.c` — the variant whose
  operations are mostly `void` (embedded below in namespace `Datastructs`).

Modelling conventions:

* A heap region is a `List Nat` of bytes; `data : Option (List Nat)` models
  the `void* data` pointer, `none` standing for `NULL`.  The length of the
  list is the allocated size in bytes.
* `malloc`/`realloc` are modelled by an explicit allocator decision
  `ok : Bool` passed to every operation that may allocate (each operation
  performs at most one allocation).  A request of zero bytes returns `NULL`;
  the C standard (C17 7.22.3) leaves size-zero allocation
  implementation-defined and permits this behaviour, and it is the choice
  under which no modelled execution commits undefined behaviour.  A
  successful `realloc` preserves the prefix of the old region and the
  contents of fresh bytes are unspecified (modelled as `0`).  A failed
  `realloc` leaves the old region intact, as in C.
* `size_t` arithmetic is modelled by `Nat`; none of the checked claims
  concerns `size_t` overflow.
* `memcpy(p + off, src, n)` on a region `r` is `writeBytes r off src`
  (with `src` of length `n`); reading `n` bytes at offset `off` is
  `readBytes r off n`.  `get_dynamic_array_element` returns the bytes
  visible through the returned pointer (or `none` for `NULL`).
-/

namespace Jester

/-- One byte-addressed `malloc` request: `ok` is the allocator's decision for
this call.  Freshly allocated bytes have unspecified contents (modelled as
zeros).  A zero-byte request returns `NULL`. -/
def mallocBytes (ok : Bool) (n : Nat) : Option (List Nat) :=
  if ok = true ∧ n ≠ 0 then some (List.replicate n 0) else none

/-- One `realloc` request on the (possibly `NULL`) old region: on success the
old contents are preserved up to the new size and any grown tail is
unspecified (modelled as zeros); `realloc(NULL, n)` behaves as `malloc(n)`.
A zero-byte request returns `NULL`. -/
def reallocBytes (ok : Bool) (old : Option (List Nat)) (n : Nat) :
    Option (List Nat) :=
  if ok = true ∧ n ≠ 0 then
    some ((old.getD []).take n ++ List.replicate (n - (old.getD []).length) 0)
  else none

/-- `memcpy(r + off, src, src.length)` inside region `r`. -/
def writeBytes (r : List Nat) (off : Nat) (src : List Nat) : List Nat :=
  r.take off ++ src ++ r.drop (off + src.length)

/-- Reading `len` bytes of region `r` starting at byte offset `off`. -/
def readBytes (r : List Nat) (off len : Nat) : List Nat :=
  (r.drop off).take len

/-- The `struct DynamicArray` of `jester_dynamic_array.h`: a data pointer,
the number of elements in use, the element capacity of the allocation and
the fixed byte width of one element. -/
structure DynamicArray where
  data : Option (List Nat)
  count : Nat
  capacity : Nat
  element_size : Nat
deriving DecidableEq

/-- The zero-initialised struct `{}`, also the "empty/unallocated" state. -/
def emptyArray : DynamicArray := ⟨none, 0, 0, 0⟩

/-- Lines 71–73 of both variants: copy `element_size` bytes of the new
element to position `count`, then increment `count`.  The caller supplies
exactly `element_size` bytes (`data.length = a.element_size` wherever this
matters). -/
def pushStore (a : DynamicArray) (data : List Nat) : DynamicArray :=
  ⟨some (writeBytes (a.data.getD []) (a.count * a.element_size) data),
   a.count + 1, a.capacity, a.element_size⟩

namespace DataStructures

/-- Line 55 of `jester_dynamic_array.c`: the capacity requested by the growth
step of `push_dynamic_array` (`const size_t new_capacity = a->capacity * 2`). -/
def push_new_capacity (capacity : Nat) : Nat :=
  capacity * 2

/-- `create_dynamic_array` (bool variant): zero-initialise, `malloc`
`element_size * capacity` bytes, return the zero struct if that fails,
otherwise set the fields. -/
def create_dynamic_array (ok : Bool) (element_size capacity : Nat) :
    DynamicArray :=
  match mallocBytes ok (element_size * capacity) with
  | none => emptyArray
  | some region => ⟨some region, 0, capacity, element_size⟩

/-- `push_dynamic_array` (bool variant): if full, `realloc` to
`element_size * (capacity * 2)` bytes; on reallocation failure return
`false` with the array untouched; otherwise store the element and report
`true`. -/
def push_dynamic_array (ok : Bool) (a : DynamicArray) (data : List Nat) :
    Bool × DynamicArray :=
  if a.count = a.capacity then
    match reallocBytes ok a.data (a.element_size * push_new_capacity a.capacity) with
    | some temp_ptr =>
        (true, pushStore ⟨some temp_ptr, a.count, push_new_capacity a.capacity,
                          a.element_size⟩ data)
    | none => (false, a)
  else
    (true, pushStore a data)

/-- `get_dynamic_array_element` (bool variant): `NULL` when `i >= count`,
otherwise a pointer to the element's `element_size` bytes at byte offset
`element_size * i` (we return the bytes seen through that pointer). -/
def get_dynamic_array_element (a : DynamicArray) (i : Nat) :
    Option (List Nat) :=
  if i ≥ a.count then none
  else some (readBytes (a.data.getD []) (a.element_size * i) a.element_size)

/-- `clear_dynamic_array` (bool variant): set `count` to 0, keep storage. -/
def clear_dynamic_array (a : DynamicArray) : Bool × DynamicArray :=
  (true, ⟨a.data, 0, a.capacity, a.element_size⟩)

/-- `free_dynamic_array` (bool variant): if `data` is non-`NULL`, free it and
zero all fields, reporting `true`; otherwise return `false` **without
touching any field** (the early `return false` skips the resets). -/
def free_dynamic_array (a : DynamicArray) : Bool × DynamicArray :=
  match a.data with
  | some _ => (true, ⟨none, 0, 0, 0⟩)
  | none => (false, a)

/-- `reserve_dynamic_array` (bool variant): nothing to do when
`capacity >= new_capacity`; otherwise `realloc` to
`new_capacity * element_size` bytes, updating on success. -/
def reserve_dynamic_array (ok : Bool) (a : DynamicArray) (new_capacity : Nat) :
    Bool × DynamicArray :=
  if a.capacity ≥ new_capacity then
    (true, a)
  else
    match reallocBytes ok a.data (new_capacity * a.element_size) with
    | some temp_ptr => (true, ⟨some temp_ptr, a.count, new_capacity, a.element_size⟩)
    | none => (false, a)

/-- `shrink_dynamic_array` (bool variant): when `count == 0` free the region
and zero `data`/`capacity`/`element_size` (the code does not touch `count`),
reporting `false`; otherwise `realloc` down to `element_size * count`
bytes. -/
def shrink_dynamic_array (ok : Bool) (a : DynamicArray) : Bool × DynamicArray :=
  if a.count = 0 then
    (false, ⟨none, a.count, 0, 0⟩)
  else
    match reallocBytes ok a.data (a.element_size * a.count) with
    | some temp_ptr => (true, ⟨some temp_ptr, a.count, a.count, a.element_size⟩)
    | none => (false, a)

/-- `pop_dynamic_array` (bool variant): fail on an empty array, otherwise
decrement `count` and, when a destination is supplied (`dst = true`), copy
out the removed element's bytes (returned as the third component). -/
def pop_dynamic_array (a : DynamicArray) (dst : Bool) :
    Bool × DynamicArray × Option (List Nat) :=
  if a.count = 0 then
    (false, a, none)
  else
    (true, ⟨a.data, a.count - 1, a.capacity, a.element_size⟩,
     if dst then
       some (readBytes (a.data.getD []) (a.element_size * (a.count - 1))
               a.element_size)
     else none)

/-- `copy_dynamic_array` (bool variant): overwrite the destination's
metadata with the source's, `malloc` `element_size * capacity` bytes for it
(so the result never depends on the incoming `dst`); on allocation failure
zero the metadata and report `false`; if the source has data, `memcpy` the
first `element_size * count` bytes and report `true`; otherwise report
`false` **leaving the destination with the copied metadata and the fresh
allocation**. -/
def copy_dynamic_array (ok : Bool) (src dst : DynamicArray) :
    Bool × DynamicArray :=
  match mallocBytes ok (src.element_size * src.capacity) with
  | none => (false, ⟨none, 0, 0, 0⟩)
  | some region =>
    match src.data with
    | some srcRegion =>
        (true, ⟨some (writeBytes region 0
                  (readBytes srcRegion 0 (src.element_size * src.count))),
                src.count, src.capacity, src.element_size⟩)
    | none => (false, ⟨some region, src.count, src.capacity, src.element_size⟩)

/-- A sequence of pushes (allocator decision paired with each element);
stops at the first failing push, reporting whether every push succeeded. -/
def pushAll : DynamicArray → List (Bool × List Nat) → Bool × DynamicArray
  | a, [] => (true, a)
  | a, s :: rest =>
    match push_dynamic_array s.1 a s.2 with
    | (true, a2) => pushAll a2 rest
    | (false, a2) => (false, a2)

end DataStructures

namespace Datastructs

/-- `create_dynamic_array` (void-variant file): identical to the bool
variant's. -/
def create_dynamic_array (ok : Bool) (element_size capacity : Nat) :
    DynamicArray :=
  match mallocBytes ok (element_size * capacity) with
  | none => emptyArray
  | some region => ⟨some region, 0, capacity, element_size⟩

/-- `push_dynamic_array` (void variant): same growth and store logic, but a
reallocation failure just returns with no signal. -/
def push_dynamic_array (ok : Bool) (a : DynamicArray) (data : List Nat) :
    DynamicArray :=
  if a.count = a.capacity then
    match reallocBytes ok a.data (a.element_size * (a.capacity * 2)) with
    | some temp_ptr =>
        pushStore ⟨some temp_ptr, a.count, a.capacity * 2, a.element_size⟩ data
    | none => a
  else
    pushStore a data

/-- `get_dynamic_array_element` (void-variant file): pointer when
`i < count`, else `NULL`. -/
def get_dynamic_array_element (a : DynamicArray) (i : Nat) :
    Option (List Nat) :=
  if i < a.count then
    some (readBytes (a.data.getD []) (a.element_size * i) a.element_size)
  else none

/-- `clear_dynamic_array` (void variant): set `count` to 0. -/
def clear_dynamic_array (a : DynamicArray) : DynamicArray :=
  ⟨a.data, 0, a.capacity, a.element_size⟩

/-- `free_dynamic_array` (void variant): free the region if any, then
**unconditionally** zero every field. -/
def free_dynamic_array (a : DynamicArray) : DynamicArray :=
  ⟨none, 0, 0, 0⟩

/-- `reserve_dynamic_array` (void variant): same reallocation logic as the
bool variant, no signal. -/
def reserve_dynamic_array (ok : Bool) (a : DynamicArray) (new_capacity : Nat) :
    DynamicArray :=
  if a.capacity < new_capacity then
    match reallocBytes ok a.data (new_capacity * a.element_size) with
    | some temp_ptr => ⟨some temp_ptr, a.count, new_capacity, a.element_size⟩
    | none => a
  else a

/-- `shrink_dynamic_array` (void variant): same state transitions as the
bool variant, no signal. -/
def shrink_dynamic_array (ok : Bool) (a : DynamicArray) : DynamicArray :=
  if a.count = 0 then
    ⟨none, a.count, 0, 0⟩
  else
    match reallocBytes ok a.data (a.element_size * a.count) with
    | some temp_ptr => ⟨some temp_ptr, a.count, a.count, a.element_size⟩
    | none => a

/-- `pop_dynamic_array` (void-variant file): identical to the bool
variant's (it does return a `bool`). -/
def pop_dynamic_array (a : DynamicArray) (dst : Bool) :
    Bool × DynamicArray × Option (List Nat) :=
  if a.count = 0 then
    (false, a, none)
  else
    (true, ⟨a.data, a.count - 1, a.capacity, a.element_size⟩,
     if dst then
       some (readBytes (a.data.getD []) (a.element_size * (a.count - 1))
               a.element_size)
     else none)

/-- `copy_dynamic_array` (void variant): same state transitions as the bool
variant, no signal. -/
def copy_dynamic_array (ok : Bool) (src dst : DynamicArray) : DynamicArray :=
  match mallocBytes ok (src.element_size * src.capacity) with
  | none => ⟨none, 0, 0, 0⟩
  | some region =>
    match src.data with
    | some srcRegion =>
        ⟨some (writeBytes region 0
            (readBytes srcRegion 0 (src.element_size * src.count))),
         src.count, src.capacity, src.element_size⟩
    | none => ⟨some region, src.count, src.capacity, src.element_size⟩

end Datastructs

/-- The spec's data-model invariant (§3): `0 ≤ count ≤ capacity`; a
zero-capacity buffer is unallocated and empty; an allocated region holds
exactly `capacity * element_size` bytes. -/
def dataModelInv (a : DynamicArray) : Prop :=
  a.count ≤ a.capacity ∧
  (a.capacity = 0 → a.data = none ∧ a.count = 0) ∧
  (∀ r, a.data = some r → r.length = a.capacity * a.element_size)

/-- The capacity requested by the growth step according to the
specification's words (§4.1 Append): `max(1, capacity * 2)`. -/
def spec_growth_capacity (capacity : Nat) : Nat :=
  max 1 (capacity * 2)

theorem mallocBytes_zero (ok : Bool) : mallocBytes ok 0 = none := by
  simp [mallocBytes]

theorem reallocBytes_zero (ok : Bool) (old : Option (List Nat)) :
    reallocBytes ok old 0 = none := by
  simp [reallocBytes]

theorem mallocBytes_eq_some {ok : Bool} {n : Nat} {region : List Nat}
    (h : mallocBytes ok n = some region) :
    ok = true ∧ n ≠ 0 ∧ region = List.replicate n 0 := by
  unfold mallocBytes at h
  split at h <;> simp_all

theorem reallocBytes_eq_some {ok : Bool} {old : Option (List Nat)} {n : Nat}
    {t : List Nat} (h : reallocBytes ok old n = some t) :
    ok = true ∧ n ≠ 0 ∧
      t = (old.getD []).take n ++ List.replicate (n - (old.getD []).length) 0 := by
  unfold reallocBytes at h
  split at h <;> simp_all

theorem writeBytes_readBytes (r : List Nat) (off n : Nat)
    (h : off + n ≤ r.length) : writeBytes r off (readBytes r off n) = r := by
  unfold writeBytes readBytes
  have hlen : ((r.drop off).take n).length = n := by
    simp only [List.length_take, List.length_drop]
    omega
  rw [hlen, List.append_assoc]
  have h1 : (r.drop off).take n ++ r.drop (off + n) = r.drop off := by
    have h2 := List.take_append_drop n (r.drop off)
    rwa [List.drop_drop] at h2
  rw [h1, List.take_append_drop]

/-- C1: the claim says the growth step of Append requests a new capacity of
exactly `max(1, capacity * 2)`, in particular capacity 1 when growing from
capacity 0.  The code (line 55) requests `capacity * 2`, which is 0 when
growing from capacity 0: the zero-byte reallocation request fails and a
buffer of capacity 0 can never grow, so no Append on it ever succeeds. -/
theorem c1_growth_requests_double_not_max_one :
    DataStructures.push_new_capacity 0 = 0 ∧
    spec_growth_capacity 0 = 1 ∧
    DataStructures.push_dynamic_array true ⟨none, 0, 0, 4⟩ [1, 2, 3, 4]
      = (false, ⟨none, 0, 0, 4⟩) ∧
    (∀ ok v, (DataStructures.push_dynamic_array ok ⟨none, 0, 0, 4⟩ v).1 = false) := by
  refine ⟨rfl, rfl, rfl, ?_⟩
  intro ok v
  cases ok <;> rfl

/-- C2 counterexample: Copy on a source with no allocated storage
(`data = NULL`) whose requested allocation succeeds returns failure but does
NOT reset the destination to the empty/unallocated state: the destination
keeps the metadata copied from the source and the freshly allocated
region (the `return false` at the end of `copy_dynamic_array` skips the
resets). -/
theorem c2_counterexample :
    (DataStructures.copy_dynamic_array true ⟨none, 0, 8, 4⟩ emptyArray).1 = false ∧
    (DataStructures.copy_dynamic_array true ⟨none, 0, 8, 4⟩ emptyArray).2 ≠ emptyArray ∧
    (DataStructures.copy_dynamic_array true ⟨none, 0, 8, 4⟩ emptyArray).2
      = ⟨some (List.replicate 32 0), 0, 8, 4⟩ := by
  refine ⟨rfl, ?_, rfl⟩
  decide

/-- C2 amended: when Copy is invoked on a source with no allocated storage
the operation fails, and the destination ends in the empty/unallocated state
exactly when the allocation also fails; when the allocation succeeds the
destination is left with the source's `count`, `capacity` and
`element_size` and the fresh storage. -/
theorem c2_copy_invalid_source_spec (ok : Bool) (src dst : DynamicArray)
    (h : src.data = none) :
    (DataStructures.copy_dynamic_array ok src dst).1 = false ∧
    (mallocBytes ok (src.element_size * src.capacity) = none →
       (DataStructures.copy_dynamic_array ok src dst).2 = emptyArray) ∧
    (∀ region, mallocBytes ok (src.element_size * src.capacity) = some region →
       (DataStructures.copy_dynamic_array ok src dst).2
         = ⟨some region, src.count, src.capacity, src.element_size⟩) := by
  unfold DataStructures.copy_dynamic_array
  cases hm : mallocBytes ok (src.element_size * src.capacity) with
  | none => simp [hm, emptyArray]
  | some region => simp [hm, h]

theorem c2_witness :
    (DataStructures.copy_dynamic_array true ⟨none, 0, 8, 4⟩ emptyArray).2
      = ⟨some (List.replicate 32 0), 0, 8, 4⟩ :=
  (c2_copy_invalid_source_spec true ⟨none, 0, 8, 4⟩ emptyArray rfl).2.2
    (List.replicate 32 0) (by decide)

/-- C5: whenever Append, Reserve, or Shrink-with-nonzero-count reports
failure (`false`), the buffer is left exactly as it was before the call
(every field, including the stored bytes, unchanged); the failure is the
explicit `false` result. -/
theorem c5_failed_ops_leave_buffer_unchanged :
    (∀ ok a v, (DataStructures.push_dynamic_array ok a v).1 = false →
       (DataStructures.push_dynamic_array ok a v).2 = a) ∧
    (∀ ok a n, (DataStructures.reserve_dynamic_array ok a n).1 = false →
       (DataStructures.reserve_dynamic_array ok a n).2 = a) ∧
    (∀ ok a, a.count ≠ 0 → (DataStructures.shrink_dynamic_array ok a).1 = false →
       (DataStructures.shrink_dynamic_array ok a).2 = a) := by
  refine ⟨?_, ?_, ?_⟩
  · intro ok a v h
    unfold DataStructures.push_dynamic_array at h ⊢
    by_cases hc : a.count = a.capacity
    · simp only [if_pos hc] at h ⊢
      cases hr : reallocBytes ok a.data
          (a.element_size * DataStructures.push_new_capacity a.capacity) with
      | some t => rw [hr] at h; simp at h
      | none => rfl
    · simp only [if_neg hc] at h
      simp at h
  · intro ok a n h
    unfold DataStructures.reserve_dynamic_array at h ⊢
    by_cases hc : a.capacity ≥ n
    · simp only [if_pos hc] at h
      simp at h
    · simp only [if_neg hc] at h ⊢
      cases hr : reallocBytes ok a.data (n * a.element_size) with
      | some t => rw [hr] at h; simp at h
      | none => rfl
  · intro ok a hc h
    unfold DataStructures.shrink_dynamic_array at h ⊢
    simp only [if_neg hc] at h ⊢
    cases hr : reallocBytes ok a.data (a.element_size * a.count) with
    | some t => rw [hr] at h; simp at h
    | none => rfl

theorem c5_witness :
    (DataStructures.push_dynamic_array false ⟨some [7], 1, 1, 1⟩ [9]).2
        = ⟨some [7], 1, 1, 1⟩ ∧
    (DataStructures.reserve_dynamic_array false ⟨some [7], 1, 1, 1⟩ 5).2
        = ⟨some [7], 1, 1, 1⟩ ∧
    (DataStructures.shrink_dynamic_array false ⟨some [7], 1, 1, 1⟩).2
        = ⟨some [7], 1, 1, 1⟩ :=
  ⟨c5_failed_ops_leave_buffer_unchanged.1 false ⟨some [7], 1, 1, 1⟩ [9] (by decide),
   c5_failed_ops_leave_buffer_unchanged.2.1 false ⟨some [7], 1, 1, 1⟩ 5 (by decide),
   c5_failed_ops_leave_buffer_unchanged.2.2 false ⟨some [7], 1, 1, 1⟩ (by decide)
     (by decide)⟩

/-- C8: Reserve with `min_capacity` already covered succeeds and changes
nothing at all; Reserve never decreases capacity; a successful growing
Reserve sets `capacity` to exactly `min_capacity`, preserves `count` and
`element_size`, and the new region extends the old bytes (so all existing
element bytes are preserved). -/
theorem c8_reserve_spec (ok : Bool) (a : DynamicArray) (n : Nat) :
    (n ≤ a.capacity → DataStructures.reserve_dynamic_array ok a n = (true, a)) ∧
    (a.capacity ≤ (DataStructures.reserve_dynamic_array ok a n).2.capacity) ∧
    ((DataStructures.reserve_dynamic_array ok a n).1 = true → a.capacity < n →
       (DataStructures.reserve_dynamic_array ok a n).2.capacity = n ∧
       (DataStructures.reserve_dynamic_array ok a n).2.count = a.count ∧
       (DataStructures.reserve_dynamic_array ok a n).2.element_size = a.element_size ∧
       (∀ r, a.data = some r → r.length ≤ n * a.element_size →
          (DataStructures.reserve_dynamic_array ok a n).2.data
            = some (r ++ List.replicate (n * a.element_size - r.length) 0))) := by
  unfold DataStructures.reserve_dynamic_array
  by_cases hc : a.capacity ≥ n
  · simp only [if_pos hc]
    refine ⟨fun _ => by trivial, Nat.le_refl _, fun _ h2 => absurd hc (by omega)⟩
  · simp only [if_neg hc]
    cases hr : reallocBytes ok a.data (n * a.element_size) with
    | some t =>
      obtain ⟨-, -, ht⟩ := reallocBytes_eq_some hr
      refine ⟨fun h => absurd h hc, by show a.capacity ≤ n; omega, fun _ h2 => ?_⟩
      refine ⟨rfl, rfl, rfl, fun r hd hlen => ?_⟩
      simp only [hd, Option.getD_some] at ht
      rw [List.take_of_length_le hlen] at ht
      simp [ht]
    | none =>
      exact ⟨fun h => absurd h hc, Nat.le_refl _, fun h => by simp at h⟩

theorem c8_witness :
    2 ≤ 2 ∧
    DataStructures.reserve_dynamic_array true ⟨some [5, 6], 2, 2, 1⟩ 2
      = (true, ⟨some [5, 6], 2, 2, 1⟩) ∧
    (DataStructures.reserve_dynamic_array true ⟨some [5, 6], 2, 2, 1⟩ 4).2.capacity = 4 ∧
    (DataStructures.reserve_dynamic_array true ⟨some [5, 6], 2, 2, 1⟩ 4).2.count = 2 ∧
    (DataStructures.reserve_dynamic_array true ⟨some [5, 6], 2, 2, 1⟩ 4).2.data
      = some ([5, 6] ++ List.replicate (4 * 1 - 2) 0) :=
  have h := (c8_reserve_spec true ⟨some [5, 6], 2, 2, 1⟩ 4).2.2 (by decide) (by decide)
  ⟨Nat.le_refl 2,
   (c8_reserve_spec true ⟨some [5, 6], 2, 2, 1⟩ 2).1 (by decide),
   h.1, h.2.1, h.2.2.2 [5, 6] rfl (by decide)⟩

/-- C9: Shrink on an empty buffer (`count == 0`) frees the storage, resets
the buffer to the same end state as a Release of an allocated buffer
(`storage` unallocated, `count = 0`, `capacity = 0`, `element_size = 0`)
and reports the no-shrink outcome (`false`); a successful Shrink with
`count > 0` sets `capacity` to exactly `count` and preserves `count`,
`element_size` and all stored element bytes. -/
theorem c9_shrink_spec (ok : Bool) (a : DynamicArray) :
    (a.count = 0 → DataStructures.shrink_dynamic_array ok a = (false, emptyArray)) ∧
    ((DataStructures.shrink_dynamic_array ok a).1 = true →
       (DataStructures.shrink_dynamic_array ok a).2.capacity = a.count ∧
       (DataStructures.shrink_dynamic_array ok a).2.count = a.count ∧
       (DataStructures.shrink_dynamic_array ok a).2.element_size = a.element_size ∧
       (∀ r, a.data = some r → a.element_size * a.count ≤ r.length →
          (DataStructures.shrink_dynamic_array ok a).2.data
            = some (r.take (a.element_size * a.count)))) ∧
    (∀ b : DynamicArray, ∀ r, b.data = some r →
       DataStructures.free_dynamic_array b = (true, emptyArray)) := by
  refine ⟨?_, ?_, ?_⟩
  · intro hc
    unfold DataStructures.shrink_dynamic_array
    simp [if_pos hc, hc, emptyArray]
  · intro hs
    unfold DataStructures.shrink_dynamic_array at hs ⊢
    by_cases hc : a.count = 0
    · simp [if_pos hc] at hs
    · simp only [if_neg hc] at hs ⊢
      cases hr : reallocBytes ok a.data (a.element_size * a.count) with
      | some t =>
        obtain ⟨-, -, ht⟩ := reallocBytes_eq_some hr
        refine ⟨rfl, rfl, rfl, fun r hd hlen => ?_⟩
        simp only [hd, Option.getD_some] at ht
        have hz : a.element_size * a.count - r.length = 0 := by omega
        rw [hz] at ht
        simp [ht]
      | none => rw [hr] at hs; simp at hs
  · intro b r hd
    unfold DataStructures.free_dynamic_array
    rw [hd]
    rfl

theorem c9_witness :
    DataStructures.shrink_dynamic_array true ⟨some [4], 0, 1, 1⟩ = (false, emptyArray) ∧
    (DataStructures.shrink_dynamic_array true ⟨some [5, 6, 9], 2, 3, 1⟩).2.capacity = 2 ∧
    (DataStructures.shrink_dynamic_array true ⟨some [5, 6, 9], 2, 3, 1⟩).2.data
      = some ([5, 6, 9].take (1 * 2)) ∧
    DataStructures.free_dynamic_array ⟨some [4], 0, 1, 1⟩ = (true, emptyArray) :=
  have h := (c9_shrink_spec true ⟨some [5, 6, 9], 2, 3, 1⟩).2.1 (by decide)
  ⟨(c9_shrink_spec true ⟨some [4], 0, 1, 1⟩).1 rfl,
   h.1, h.2.2.2 [5, 6, 9] rfl (by decide),
   (c9_shrink_spec true ⟨some [4], 0, 1, 1⟩).2.2 ⟨some [4], 0, 1, 1⟩ [4] rfl⟩

/-- Case analysis on `push_dynamic_array` (bool variant): growth attempted
and failed; growth attempted and succeeded; or no growth needed. -/
theorem push_cases (ok : Bool) (a : DynamicArray) (v : List Nat) :
    (a.count = a.capacity ∧
       reallocBytes ok a.data (a.element_size * (a.capacity * 2)) = none ∧
       DataStructures.push_dynamic_array ok a v = (false, a)) ∨
    (∃ t, a.count = a.capacity ∧
       reallocBytes ok a.data (a.element_size * (a.capacity * 2)) = some t ∧
       DataStructures.push_dynamic_array ok a v
         = (true, pushStore ⟨some t, a.count, a.capacity * 2, a.element_size⟩ v)) ∨
    (a.count ≠ a.capacity ∧
       DataStructures.push_dynamic_array ok a v = (true, pushStore a v)) := by
  unfold DataStructures.push_dynamic_array DataStructures.push_new_capacity
  by_cases hc : a.count = a.capacity
  · simp only [if_pos hc]
    cases hr : reallocBytes ok a.data (a.element_size * (a.capacity * 2)) with
    | none => exact Or.inl ⟨hc, rfl, rfl⟩
    | some t => exact Or.inr (Or.inl ⟨t, hc, rfl, rfl⟩)
  · simp only [if_neg hc]
    exact Or.inr (Or.inr ⟨hc, trivial⟩)

/-- C3: every state-changing operation of the bool variant preserves the
data-model invariant `count <= capacity`, whether it succeeds or fails
(Get takes the buffer as `const` and changes no state, so it preserves the
invariant by construction). -/
theorem c3_ops_preserve_count_le_capacity :
    (∀ ok es c, (DataStructures.create_dynamic_array ok es c).count
        ≤ (DataStructures.create_dynamic_array ok es c).capacity) ∧
    (∀ ok a v, a.count ≤ a.capacity →
        (DataStructures.push_dynamic_array ok a v).2.count
          ≤ (DataStructures.push_dynamic_array ok a v).2.capacity) ∧
    (∀ a : DynamicArray, (DataStructures.clear_dynamic_array a).2.count
        ≤ (DataStructures.clear_dynamic_array a).2.capacity) ∧
    (∀ a : DynamicArray, a.count ≤ a.capacity →
        (DataStructures.free_dynamic_array a).2.count
          ≤ (DataStructures.free_dynamic_array a).2.capacity) ∧
    (∀ ok a n, a.count ≤ a.capacity →
        (DataStructures.reserve_dynamic_array ok a n).2.count
          ≤ (DataStructures.reserve_dynamic_array ok a n).2.capacity) ∧
    (∀ ok a, a.count ≤ a.capacity →
        (DataStructures.shrink_dynamic_array ok a).2.count
          ≤ (DataStructures.shrink_dynamic_array ok a).2.capacity) ∧
    (∀ (a : DynamicArray) (d : Bool), a.count ≤ a.capacity →
        (DataStructures.pop_dynamic_array a d).2.1.count
          ≤ (DataStructures.pop_dynamic_array a d).2.1.capacity) ∧
    (∀ ok src dst, src.count ≤ src.capacity →
        (DataStructures.copy_dynamic_array ok src dst).2.count
          ≤ (DataStructures.copy_dynamic_array ok src dst).2.capacity) := by
  refine ⟨?_, ?_, ?_, ?_, ?_, ?_, ?_, ?_⟩
  · intro ok es c
    unfold DataStructures.create_dynamic_array
    cases hm : mallocBytes ok (es * c) with
    | none => exact Nat.le_refl 0
    | some region => exact Nat.zero_le c
  · intro ok a v h
    rcases push_cases ok a v with ⟨-, -, he⟩ | ⟨t, hc, hr, he⟩ | ⟨hc, he⟩
    · rw [he]; exact h
    · rw [he]
      obtain ⟨-, hn, -⟩ := reallocBytes_eq_some hr
      have hcap : a.capacity ≠ 0 := by
        intro h0
        exact hn (by rw [h0]; simp)
      show a.count + 1 ≤ a.capacity * 2
      omega
    · rw [he]
      show a.count + 1 ≤ a.capacity
      omega
  · intro a; exact Nat.zero_le _
  · intro a h
    unfold DataStructures.free_dynamic_array
    cases a.data with
    | some r => exact Nat.le_refl 0
    | none => exact h
  · intro ok a n h
    unfold DataStructures.reserve_dynamic_array
    by_cases hc : a.capacity ≥ n
    · simpa [if_pos hc] using h
    · simp only [if_neg hc]
      cases hr : reallocBytes ok a.data (n * a.element_size) with
      | some t => show a.count ≤ n; omega
      | none => exact h
  · intro ok a h
    unfold DataStructures.shrink_dynamic_array
    by_cases hc : a.count = 0
    · simp [if_pos hc, hc]
    · simp only [if_neg hc]
      cases hr : reallocBytes ok a.data (a.element_size * a.count) with
      | some t => exact Nat.le_refl _
      | none => exact h
  · intro a d h
    unfold DataStructures.pop_dynamic_array
    by_cases hc : a.count = 0
    · simpa [if_pos hc] using h
    · simp only [if_neg hc]
      show a.count - 1 ≤ a.capacity
      omega
  · intro ok src dst h
    unfold DataStructures.copy_dynamic_array
    cases hm : mallocBytes ok (src.element_size * src.capacity) with
    | none => exact Nat.le_refl 0
    | some region =>
      cases hs : src.data with
      | some r => exact h
      | none => exact h

theorem c3_witness :
    (1 : Nat) ≤ 1 ∧
    (DataStructures.push_dynamic_array true ⟨some [7], 1, 1, 1⟩ [9]).2.count
      ≤ (DataStructures.push_dynamic_array true ⟨some [7], 1, 1, 1⟩ [9]).2.capacity :=
  ⟨Nat.le_refl 1,
   c3_ops_preserve_count_le_capacity.2.1 true ⟨some [7], 1, 1, 1⟩ [9] (Nat.le_refl 1)⟩

/-- The spec's structural invariant checked by C4: a zero-capacity buffer
has no allocated storage and holds no elements. -/
def zeroCapUnalloc (a : DynamicArray) : Prop :=
  a.capacity = 0 → a.data = none ∧ a.count = 0

/-- C4: constructing with `initial_capacity = 0` yields the
empty/unallocated state, the very same value returned when the initial
allocation fails; and the invariant `capacity = 0 → storage unallocated ∧
count = 0` is established by Construct and preserved by every operation. -/
theorem c4_zero_capacity_construct_and_invariant :
    (∀ ok es, DataStructures.create_dynamic_array ok es 0 = emptyArray) ∧
    (∀ es c, DataStructures.create_dynamic_array false es c = emptyArray) ∧
    (∀ ok es c, zeroCapUnalloc (DataStructures.create_dynamic_array ok es c)) ∧
    (∀ ok a v, zeroCapUnalloc a →
        zeroCapUnalloc (DataStructures.push_dynamic_array ok a v).2) ∧
    (∀ a, zeroCapUnalloc a →
        zeroCapUnalloc (DataStructures.clear_dynamic_array a).2) ∧
    (∀ a, zeroCapUnalloc a →
        zeroCapUnalloc (DataStructures.free_dynamic_array a).2) ∧
    (∀ ok a n, zeroCapUnalloc a →
        zeroCapUnalloc (DataStructures.reserve_dynamic_array ok a n).2) ∧
    (∀ ok a, zeroCapUnalloc a →
        zeroCapUnalloc (DataStructures.shrink_dynamic_array ok a).2) ∧
    (∀ (a : DynamicArray) (d : Bool), zeroCapUnalloc a →
        zeroCapUnalloc (DataStructures.pop_dynamic_array a d).2.1) ∧
    (∀ ok src dst, zeroCapUnalloc (DataStructures.copy_dynamic_array ok src dst).2) := by
  refine ⟨?_, ?_, ?_, ?_, ?_, ?_, ?_, ?_, ?_, ?_⟩
  · intro ok es
    unfold DataStructures.create_dynamic_array
    rw [Nat.mul_zero, mallocBytes_zero]
  · intro es c
    unfold DataStructures.create_dynamic_array
    have : mallocBytes false (es * c) = none := by simp [mallocBytes]
    rw [this]
  · intro ok es c
    unfold DataStructures.create_dynamic_array
    cases hm : mallocBytes ok (es * c) with
    | none => exact fun _ => ⟨rfl, rfl⟩
    | some region =>
      intro h0
      obtain ⟨-, hn, -⟩ := mallocBytes_eq_some hm
      have hcc : c = 0 := h0
      exact absurd (by rw [hcc, Nat.mul_zero]) hn
  · intro ok a v h
    rcases push_cases ok a v with ⟨-, -, he⟩ | ⟨t, hc, hr, he⟩ | ⟨hc, he⟩
    · rw [he]; exact h
    · rw [he]
      intro h0
      obtain ⟨-, hn, -⟩ := reallocBytes_eq_some hr
      have h2 : a.capacity * 2 = 0 := h0
      exact absurd (by rw [h2, Nat.mul_zero]) hn
    · rw [he]
      intro h0
      have h2 : a.capacity = 0 := h0
      have h3 : a.count = 0 := (h h2).2
      exact absurd (h3.trans h2.symm) hc
  · intro a h h0
    obtain ⟨hd, hcnt⟩ := h h0
    exact ⟨hd, rfl⟩
  · intro a h
    unfold DataStructures.free_dynamic_array
    cases hd : a.data with
    | some r => exact fun _ => ⟨rfl, rfl⟩
    | none => exact h
  · intro ok a n h
    unfold DataStructures.reserve_dynamic_array
    by_cases hc : a.capacity ≥ n
    · simpa [if_pos hc] using h
    · simp only [if_neg hc]
      cases hr : reallocBytes ok a.data (n * a.element_size) with
      | some t =>
        intro h0
        have : n = 0 := h0
        omega
      | none => exact h
  · intro ok a h
    unfold DataStructures.shrink_dynamic_array
    by_cases hc : a.count = 0
    · simp only [if_pos hc]
      exact fun _ => ⟨rfl, hc⟩
    · simp only [if_neg hc]
      cases hr : reallocBytes ok a.data (a.element_size * a.count) with
      | some t =>
        intro h0
        exact absurd h0 hc
      | none => exact h
  · intro a d h
    unfold DataStructures.pop_dynamic_array
    by_cases hc : a.count = 0
    · simpa [if_pos hc] using h
    · simp only [if_neg hc]
      intro h0
      have h2 : a.capacity = 0 := h0
      exact absurd (h h2).2 hc
  · intro ok src dst
    unfold DataStructures.copy_dynamic_array
    cases hm : mallocBytes ok (src.element_size * src.capacity) with
    | none => exact fun _ => ⟨rfl, rfl⟩
    | some region =>
      obtain ⟨-, hn, -⟩ := mallocBytes_eq_some hm
      have hcap : src.capacity ≠ 0 := by
        intro h0
        exact hn (by rw [h0, Nat.mul_zero])
      cases hs : src.data with
      | some r => exact fun h0 => absurd h0 hcap
      | none => exact fun h0 => absurd h0 hcap

theorem c4_witness :
    DataStructures.create_dynamic_array true 4 0 = emptyArray ∧
    zeroCapUnalloc (DataStructures.push_dynamic_array true ⟨none, 0, 0, 4⟩ [1, 2, 3, 4]).2 :=
  ⟨c4_zero_capacity_construct_and_invariant.1 true 4,
   c4_zero_capacity_construct_and_invariant.2.2.2.1 true ⟨none, 0, 0, 4⟩ [1, 2, 3, 4]
     (fun _ => ⟨rfl, rfl⟩)⟩

/-- C7: on a non-empty well-formed buffer, Pop (with a destination) followed
immediately by an Append of the popped bytes succeeds and restores the
buffer exactly: same `count`, same `capacity`, same `element_size` and the
same stored bytes. -/
theorem c7_pop_then_push_restores (ok : Bool) (a : DynamicArray) (r : List Nat)
    (hd : a.data = some r) (h1 : 1 ≤ a.count) (h2 : a.count ≤ a.capacity)
    (hr : r.length = a.capacity * a.element_size) :
    (DataStructures.pop_dynamic_array a true).1 = true ∧
    ∀ bytes, (DataStructures.pop_dynamic_array a true).2.2 = some bytes →
      DataStructures.push_dynamic_array ok
          (DataStructures.pop_dynamic_array a true).2.1 bytes = (true, a) := by
  have hc0 : ¬ a.count = 0 := by omega
  unfold DataStructures.pop_dynamic_array
  simp only [if_neg hc0, if_pos, hd, Option.getD_some]
  refine ⟨trivial, ?_⟩
  intro bytes hb
  simp only [if_true, Option.some.injEq] at hb
  unfold DataStructures.push_dynamic_array
  have hne : ¬ (a.count - 1 = a.capacity) := by
    show ¬ ((⟨some r, a.count - 1, a.capacity, a.element_size⟩ : DynamicArray).count
       = (⟨some r, a.count - 1, a.capacity, a.element_size⟩ : DynamicArray).capacity)
    show ¬ (a.count - 1 = a.capacity)
    omega
  simp only [if_neg hne]
  unfold pushStore
  simp only [Option.getD_some]
  have hw : writeBytes r ((a.count - 1) * a.element_size) bytes = r := by
    rw [← hb, Nat.mul_comm a.element_size (a.count - 1)]
    apply writeBytes_readBytes
    have : (a.count - 1) * a.element_size + a.element_size
        = a.count * a.element_size := by
      have := Nat.succ_pred_eq_of_pos (show 0 < a.count by omega)
      calc (a.count - 1) * a.element_size + a.element_size
          = (a.count - 1 + 1) * a.element_size := by rw [Nat.succ_mul]
        _ = a.count * a.element_size := by rw [Nat.sub_add_cancel h1]
    rw [this, hr]
    exact Nat.mul_le_mul_right _ h2
  rw [hw]
  have hcnt : a.count - 1 + 1 = a.count := Nat.sub_add_cancel h1
  rw [hcnt, ← hd]

theorem c7_witness :
    DataStructures.push_dynamic_array true
        (DataStructures.pop_dynamic_array ⟨some [7, 8], 2, 2, 1⟩ true).2.1 [8]
      = (true, ⟨some [7, 8], 2, 2, 1⟩) :=
  (c7_pop_then_push_restores true ⟨some [7, 8], 2, 2, 1⟩ [7, 8] rfl
      (by decide) (by decide) (by decide)).2 [8] (by decide)

/-- C10 counterexample: a buffer allowed by the data-model invariants
(unallocated, empty, but with `element_size = 4`, e.g. a lazily-growing
buffer as the spec's lifecycle describes) on which the two variants of
`free_dynamic_array` end in different states: the bool variant's early
`return false` leaves `element_size = 4`, the void variant zeroes it. -/
theorem c10_counterexample :
    dataModelInv ⟨none, 0, 0, 4⟩ ∧
    (DataStructures.free_dynamic_array ⟨none, 0, 0, 4⟩).2
      ≠ Datastructs.free_dynamic_array ⟨none, 0, 0, 4⟩ := by
  constructor
  · refine ⟨Nat.le_refl 0, fun _ => ⟨rfl, rfl⟩, ?_⟩
    intro r h
    simp at h
  · decide

/-- C10 amended: for every operation except `free_dynamic_array`, the two
variants are state-equivalent on all inputs (identical final buffer, and
identical copied-out bytes for `pop`), differing only in whether an outcome
signal is returned; `free_dynamic_array` is state-equivalent on buffers
with allocated storage, but on an unallocated buffer the bool variant
leaves every field unchanged while the void variant resets them all to
zero, so the variants agree there only when the fields are already zero. -/
theorem c10_variants_agree_except_free :
    (∀ ok es c, DataStructures.create_dynamic_array ok es c
        = Datastructs.create_dynamic_array ok es c) ∧
    (∀ ok a v, (DataStructures.push_dynamic_array ok a v).2
        = Datastructs.push_dynamic_array ok a v) ∧
    (∀ a i, DataStructures.get_dynamic_array_element a i
        = Datastructs.get_dynamic_array_element a i) ∧
    (∀ a, (DataStructures.clear_dynamic_array a).2 = Datastructs.clear_dynamic_array a) ∧
    (∀ a r, a.data = some r →
        (DataStructures.free_dynamic_array a).2 = Datastructs.free_dynamic_array a) ∧
    (∀ a, a.data = none →
        (DataStructures.free_dynamic_array a).2 = a ∧
        Datastructs.free_dynamic_array a = emptyArray) ∧
    (∀ ok a n, (DataStructures.reserve_dynamic_array ok a n).2
        = Datastructs.reserve_dynamic_array ok a n) ∧
    (∀ ok a, (DataStructures.shrink_dynamic_array ok a).2
        = Datastructs.shrink_dynamic_array ok a) ∧
    (∀ (a : DynamicArray) (d : Bool), DataStructures.pop_dynamic_array a d
        = Datastructs.pop_dynamic_array a d) ∧
    (∀ ok src dst, (DataStructures.copy_dynamic_array ok src dst).2
        = Datastructs.copy_dynamic_array ok src dst) := by
  refine ⟨fun ok es c => rfl, ?_, ?_, fun a => rfl, ?_, ?_, ?_, ?_,
          fun a d => rfl, ?_⟩
  · intro ok a v
    unfold DataStructures.push_dynamic_array Datastructs.push_dynamic_array
      DataStructures.push_new_capacity
    by_cases hc : a.count = a.capacity
    · simp only [if_pos hc]
      cases hr : reallocBytes ok a.data (a.element_size * (a.capacity * 2)) with
      | some t => rfl
      | none => rfl
    · simp only [if_neg hc]
  · intro a i
    unfold DataStructures.get_dynamic_array_element
      Datastructs.get_dynamic_array_element
    by_cases h : i < a.count
    · rw [if_neg (by omega), if_pos h]
    · rw [if_pos (by omega), if_neg h]
  · intro a r hd
    unfold DataStructures.free_dynamic_array Datastructs.free_dynamic_array
    rw [hd]
  · intro a hd
    unfold DataStructures.free_dynamic_array Datastructs.free_dynamic_array
    rw [hd]
    exact ⟨rfl, rfl⟩
  · intro ok a n
    unfold DataStructures.reserve_dynamic_array Datastructs.reserve_dynamic_array
    by_cases hc : a.capacity ≥ n
    · rw [if_pos hc, if_neg (by omega)]
    · rw [if_neg hc, if_pos (by omega)]
      cases hr : reallocBytes ok a.data (n * a.element_size) with
      | some t => rfl
      | none => rfl
  · intro ok a
    unfold DataStructures.shrink_dynamic_array Datastructs.shrink_dynamic_array
    by_cases hc : a.count = 0
    · rw [if_pos hc, if_pos hc]
    · rw [if_neg hc, if_neg hc]
      cases hr : reallocBytes ok a.data (a.element_size * a.count) with
      | some t => rfl
      | none => rfl
  · intro ok src dst
    unfold DataStructures.copy_dynamic_array Datastructs.copy_dynamic_array
    cases hm : mallocBytes ok (src.element_size * src.capacity) with
    | none => rfl
    | some region =>
      cases hs : src.data with
      | some r => rfl
      | none => rfl

theorem c10_witness :
    (DataStructures.free_dynamic_array ⟨some [1, 2], 1, 2, 1⟩).2
      = Datastructs.free_dynamic_array ⟨some [1, 2], 1, 2, 1⟩ ∧
    (DataStructures.free_dynamic_array ⟨none, 0, 0, 0⟩).2 = ⟨none, 0, 0, 0⟩ ∧
    (DataStructures.push_dynamic_array true ⟨some [7], 1, 1, 1⟩ [9]).2
      = Datastructs.push_dynamic_array true ⟨some [7], 1, 1, 1⟩ [9] :=
  ⟨c10_variants_agree_except_free.2.2.2.2.1 ⟨some [1, 2], 1, 2, 1⟩ [1, 2] rfl,
   (c10_variants_agree_except_free.2.2.2.2.2.1 ⟨none, 0, 0, 0⟩ rfl).1,
   c10_variants_agree_except_free.2.1 true ⟨some [7], 1, 1, 1⟩ [9]⟩

/-- Length of the flattening of equal-width chunks. -/
theorem flatten_length_eq (es : Nat) (vs : List (List Nat))
    (h : ∀ v ∈ vs, v.length = es) : vs.flatten.length = vs.length * es := by
  induction vs with
  | nil => simp
  | cons v tl ih =>
    simp only [List.flatten_cons, List.length_append, List.length_cons]
    rw [h v (List.mem_cons_self v tl),
        ih (fun x hx => h x (List.mem_cons_of_mem v hx))]
    ring

/-- Reading chunk `i` out of a region that starts with the flattening of
equal-width chunks. -/
theorem readBytes_flatten (es : Nat) :
    ∀ (vs : List (List Nat)) (rest : List Nat) (i : Nat) (h : i < vs.length),
      (∀ v ∈ vs, v.length = es) →
      readBytes (vs.flatten ++ rest) (es * i) es = vs.get ⟨i, h⟩ := by
  intro vs
  induction vs with
  | nil =>
    intro rest i h
    exact absurd h (by simp)
  | cons v tl ih =>
    intro rest i h hl
    cases i with
    | zero =>
      unfold readBytes
      simp only [Nat.mul_zero, List.drop_zero, List.flatten_cons,
        List.append_assoc]
      rw [List.take_left' (hl v (List.mem_cons_self v tl))]
      rfl
    | succ j =>
      have hv : v.length = es := hl v (List.mem_cons_self v tl)
      have hmul : es * (j + 1) = v.length + es * j := by rw [hv]; ring
      unfold readBytes
      simp only [List.flatten_cons, List.append_assoc, hmul, List.drop_append]
      have h2 := ih rest j (by simpa using h)
        (fun x hx => hl x (List.mem_cons_of_mem v hx))
      unfold readBytes at h2
      exact h2

/-- The coupling invariant for C6: after a successful Construct followed by
successful Appends of the chunks `vs`, the buffer either is the untouched
empty state (possible only with no appends) or holds exactly the bytes of
`vs` followed by `(capacity - count) * es` spare bytes. -/
def GoodState (es : Nat) (vs : List (List Nat)) (a : DynamicArray) : Prop :=
  (a = emptyArray ∧ vs = []) ∨
  (a.element_size = es ∧ a.count = vs.length ∧ a.count ≤ a.capacity ∧
   (∀ v ∈ vs, v.length = es) ∧
   ∃ rest, a.data = some (vs.flatten ++ rest) ∧
     rest.length = (a.capacity - a.count) * es)

theorem create_goodState (ok : Bool) (es c : Nat) :
    GoodState es [] (DataStructures.create_dynamic_array ok es c) := by
  unfold DataStructures.create_dynamic_array
  cases hm : mallocBytes ok (es * c) with
  | none => exact Or.inl ⟨rfl, rfl⟩
  | some region =>
    obtain ⟨-, hn, hreg⟩ := mallocBytes_eq_some hm
    refine Or.inr ⟨rfl, rfl, Nat.zero_le c, by simp, region, by simp, ?_⟩
    rw [hreg]
    simp only [List.length_replicate, Nat.sub_zero]
    show es * c = c * es
    ring

theorem push_goodState (ok : Bool) (es : Nat) (vs : List (List Nat))
    (a a2 : DynamicArray) (v : List Nat) (hv : v.length = es)
    (hg : GoodState es vs a)
    (hp : DataStructures.push_dynamic_array ok a v = (true, a2)) :
    GoodState es (vs ++ [v]) a2 := by
  rcases hg with ⟨ha, hvs⟩ | ⟨hes, hcnt, hle, hl, rest, hdata, hrest⟩
  · subst ha
    subst hvs
    rcases push_cases ok emptyArray v with ⟨-, -, he⟩ | ⟨t, -, hr, -⟩ | ⟨hc, -⟩
    · rw [he] at hp
      exact absurd (congrArg Prod.fst hp) (by simp)
    · obtain ⟨-, hn, -⟩ := reallocBytes_eq_some hr
      exact absurd rfl hn
    · exact absurd rfl hc
  · subst hes
    rcases push_cases ok a v with ⟨-, -, he⟩ | ⟨t, hc, hr, he⟩ | ⟨hc, he⟩
    · rw [he] at hp
      exact absurd (congrArg Prod.fst hp) (by simp)
    · -- growth attempted and succeeded: count = capacity, fresh tail appended
      rw [he] at hp
      injection hp with hb ha2
      subst ha2
      obtain ⟨-, hn, ht⟩ := reallocBytes_eq_some hr
      rw [hdata, Option.getD_some] at ht
      have hflen : vs.flatten.length = vs.length * a.element_size :=
        flatten_length_eq _ vs hl
      have hd0 : a.capacity - a.count = 0 := by omega
      rw [hd0, Nat.zero_mul] at hrest
      have hrnil : rest = [] := List.length_eq_zero.mp hrest
      subst hrnil
      rw [List.append_nil] at ht
      have hlenF : vs.flatten.length = a.capacity * a.element_size := by
        rw [hflen, ← hcnt, hc]
      have hgrow : a.element_size * (a.capacity * 2)
          = a.capacity * a.element_size + a.capacity * a.element_size := by
        ring
      have htake : vs.flatten.take (a.element_size * (a.capacity * 2))
          = vs.flatten := by
        apply List.take_of_length_le
        rw [hlenF, hgrow]
        omega
      rw [htake] at ht
      have hpadlen : (a.element_size * (a.capacity * 2) - vs.flatten.length)
          = a.capacity * a.element_size := by
        rw [hlenF, hgrow, Nat.add_sub_cancel]
      rw [hpadlen] at ht
      have hcap : a.capacity ≠ 0 := by
        intro h0
        exact hn (by rw [h0]; simp)
      refine Or.inr ⟨rfl, ?_, ?_, ?_, ?_⟩
      · show a.count + 1 = (vs ++ [v]).length
        simp [hcnt]
      · show a.count + 1 ≤ a.capacity * 2
        omega
      · intro x hx
        rcases List.mem_append.mp hx with hx1 | hx2
        · exact hl x hx1
        · rw [List.mem_singleton.mp hx2]; exact hv
      · refine ⟨(List.replicate (a.capacity * a.element_size) 0).drop v.length,
          ?_, ?_⟩
        · show some (writeBytes t (a.count * a.element_size) v) = _
          rw [ht]
          unfold writeBytes
          have hoff : a.count * a.element_size = vs.flatten.length := by
            rw [hflen, hcnt]
          rw [hoff, List.take_left, List.drop_append, List.flatten_concat]
        · show ((List.replicate (a.capacity * a.element_size) 0).drop v.length).length
            = (a.capacity * 2 - (a.count + 1)) * a.element_size
          simp only [List.length_drop, List.length_replicate]
          rw [hv]
          have e2 : a.capacity * 2 - (a.count + 1) = a.capacity - 1 := by omega
          rw [e2, Nat.sub_mul, Nat.one_mul]
    · -- no growth needed: count < capacity, spare bytes consumed
      rw [he] at hp
      injection hp with hb ha2
      subst ha2
      have hflen : vs.flatten.length = vs.length * a.element_size :=
        flatten_length_eq _ vs hl
      have hlt : a.count < a.capacity := by omega
      refine Or.inr ⟨rfl, ?_, ?_, ?_, ?_⟩
      · show a.count + 1 = (vs ++ [v]).length
        simp [hcnt]
      · show a.count + 1 ≤ a.capacity
        omega
      · intro x hx
        rcases List.mem_append.mp hx with hx1 | hx2
        · exact hl x hx1
        · rw [List.mem_singleton.mp hx2]; exact hv
      · refine ⟨rest.drop v.length, ?_, ?_⟩
        · show some (writeBytes (a.data.getD []) (a.count * a.element_size) v)
            = _
          rw [hdata, Option.getD_some]
          unfold writeBytes
          have hoff : a.count * a.element_size = vs.flatten.length := by
            rw [hflen, hcnt]
          rw [hoff, List.take_left, List.drop_append, List.flatten_concat]
        · show (rest.drop v.length).length
            = (a.capacity - (a.count + 1)) * a.element_size
          simp only [List.length_drop]
          rw [hrest, hv]
          have e3 : a.capacity - (a.count + 1) = (a.capacity - a.count) - 1 := by
            omega
          rw [e3]
          conv_rhs => rw [Nat.sub_mul, Nat.one_mul]

theorem pushAll_goodState (es : Nat) :
    ∀ (steps : List (Bool × List Nat)) (a : DynamicArray)
      (vs : List (List Nat)),
      GoodState es vs a →
      (∀ s ∈ steps, (Prod.snd s : List Nat).length = es) →
      (DataStructures.pushAll a steps).1 = true →
      GoodState es (vs ++ steps.map Prod.snd)
        (DataStructures.pushAll a steps).2 := by
  intro steps
  induction steps with
  | nil =>
    intro a vs hg _ _
    simpa using hg
  | cons s tl ih =>
    intro a vs hg hlen hok
    have hs := hlen s (List.mem_cons_self s tl)
    rcases hps : DataStructures.push_dynamic_array s.1 a s.2 with ⟨b, a2⟩
    cases b
    · have hfail : DataStructures.pushAll a (s :: tl) = (false, a2) := by
        unfold DataStructures.pushAll
        rw [hps]
      rw [hfail] at hok
      simp at hok
    · have hg2 := push_goodState s.1 es vs a a2 s.2 hs hg hps
      have heq : DataStructures.pushAll a (s :: tl)
          = DataStructures.pushAll a2 tl := by
        conv_lhs => unfold DataStructures.pushAll
        rw [hps]
      rw [heq] at hok ⊢
      have h3 := ih a2 (vs ++ [s.2]) hg2
        (fun x hx => hlen x (List.mem_cons_of_mem s hx)) hok
      simpa [List.append_assoc] using h3

theorem goodState_get (es : Nat) (vs : List (List Nat)) (a : DynamicArray)
    (hg : GoodState es vs a) :
    (∀ i (h : i < vs.length),
        DataStructures.get_dynamic_array_element a i = some (vs.get ⟨i, h⟩)) ∧
    DataStructures.get_dynamic_array_element a vs.length = none := by
  rcases hg with ⟨ha, hvs⟩ | ⟨hes, hcnt, hle, hl, rest, hdata, hrest⟩
  · subst ha
    subst hvs
    exact ⟨fun i h => absurd h (by simp), rfl⟩
  · subst hes
    constructor
    · intro i h
      unfold DataStructures.get_dynamic_array_element
      rw [if_neg (by omega), hdata, Option.getD_some]
      exact congrArg some (readBytes_flatten _ vs rest i h hl)
    · unfold DataStructures.get_dynamic_array_element
      rw [if_pos (by omega)]

/-- C6: starting from any Construct, after a sequence of Appends that all
succeeded, Get at each index `i` below the number of appends returns
exactly the bytes of the `i`-th appended element (order preserved), and Get
at the next index reports absent. -/
theorem c6_construct_append_get (es c : Nat) (ok0 : Bool)
    (steps : List (Bool × List Nat))
    (hlen : ∀ s ∈ steps, (Prod.snd s : List Nat).length = es)
    (hok : (DataStructures.pushAll
        (DataStructures.create_dynamic_array ok0 es c) steps).1 = true) :
    (∀ i (h : i < steps.length),
        DataStructures.get_dynamic_array_element
            (DataStructures.pushAll
              (DataStructures.create_dynamic_array ok0 es c) steps).2 i
          = some (steps.get ⟨i, h⟩).2) ∧
    DataStructures.get_dynamic_array_element
        (DataStructures.pushAll
          (DataStructures.create_dynamic_array ok0 es c) steps).2
        steps.length = none := by
  have hg := pushAll_goodState es steps
    (DataStructures.create_dynamic_array ok0 es c) []
    (create_goodState ok0 es c) hlen hok
  rw [List.nil_append] at hg
  have h2 := goodState_get es (steps.map Prod.snd) _ hg
  constructor
  · intro i h
    have h3 := h2.1 i (by simpa using h)
    rw [h3]
    congr 1
    simp [List.get_eq_getElem]
  · have h4 := h2.2
    simpa using h4

/-- The spec's example scenario: element_size 4, initial capacity 2, three
appended elements 10, 20, 30 (as 4-byte little chunks). -/
def exampleSteps : List (Bool × List Nat) :=
  [(true, [10, 0, 0, 0]), (true, [20, 0, 0, 0]), (true, [30, 0, 0, 0])]

theorem c6_witness :
    DataStructures.get_dynamic_array_element
        (DataStructures.pushAll
          (DataStructures.create_dynamic_array true 4 2) exampleSteps).2 0
      = some [10, 0, 0, 0] ∧
    DataStructures.get_dynamic_array_element
        (DataStructures.pushAll
          (DataStructures.create_dynamic_array true 4 2) exampleSteps).2 1
      = some [20, 0, 0, 0] ∧
    DataStructures.get_dynamic_array_element
        (DataStructures.pushAll
          (DataStructures.create_dynamic_array true 4 2) exampleSteps).2 2
      = some [30, 0, 0, 0] ∧
    DataStructures.get_dynamic_array_element
        (DataStructures.pushAll
          (DataStructures.create_dynamic_array true 4 2) exampleSteps).2 3
      = none ∧
    (DataStructures.pushAll
        (DataStructures.create_dynamic_array true 4 2) exampleSteps).2.capacity
      = 4 :=
  have h := c6_construct_append_get 4 2 true exampleSteps (by decide) (by decide)
  ⟨h.1 0 (by decide), h.1 1 (by decide), h.1 2 (by decide), h.2, by decide⟩

end Jester
